import Mathlib

/-!
Verification of the CompressoX compression engine.

This file shallowly embeds the codec primitives and orchestration logic of
the repository (src/video_compression.py, src/pdf_compression.py,
src/docx_compression.py, src/text_compression.py,
src/text_lossy_compression.py, src/text_lossless_compression.py) as
executable Lean definitions, and proves or refutes the specification's
claims about them.  Machine integers are modelled as Nat (all quantities
involved are small and non-negative in the source), Python floats used in
size ratios are modelled exactly as rationals, and Python exceptions are
modelled with Option/Except or explicit failure constructors.
-/

namespace CompressoX

/-! ## Quantization matrix (src/video_compression.py, apply_quantization) -/

/-- The standard 8×8 quantization matrix hard-coded in
`apply_quantization` (src/video_compression.py lines 181-190). -/
def q_matrix_base : List (List Nat) :=
  [[16, 11, 10, 16, 24, 40, 51, 61],
   [12, 12, 14, 19, 26, 58, 60, 55],
   [14, 13, 16, 24, 40, 57, 69, 56],
   [14, 17, 22, 29, 51, 87, 80, 62],
   [18, 22, 37, 56, 68, 109, 103, 77],
   [24, 35, 55, 64, 81, 104, 113, 92],
   [49, 64, 78, 87, 103, 121, 120, 101],
   [72, 92, 95, 98, 112, 100, 103, 99]]

/-- Entry (i, j) of the base quantization matrix. -/
def q_matrix_entry (i j : Nat) : Nat := (q_matrix_base.getD i []).getD j 0

/-- The quality-derived scale factor of `apply_quantization`
(src/video_compression.py lines 192-197): `50/quality` when
`quality < 50`, else `(100 - quality)/50`.  Python float division is
modelled exactly over the rationals. -/
def quant_scale (quality : Nat) : ℚ :=
  if quality < 50 then 50 / (quality : ℚ) else ((100 : ℚ) - (quality : ℚ)) / 50

/-- Entry (i, j) of the quality-scaled quantization matrix
`q_matrix * scale` that `apply_quantization` divides the DCT
coefficients by (src/video_compression.py line 199). -/
def scaled_q_matrix (quality i j : Nat) : ℚ :=
  (q_matrix_entry i j : ℚ) * quant_scale quality

/-! ## LZ77 (src/video_compression.py lz77_encode =
src/pdf_compression.py lz77_encode, identical code over byte values) -/

/-- The inner `while` of `lz77_encode` (src/video_compression.py lines
114-118): length of the common prefix of `data[i..]` and `data[pos..]`,
capped by the lookahead size and the end of the data.  `fuel` bounds the
recursion; it is called with `fuel = lookahead`, which the guard
`ml < lookahead` makes sufficient. -/
def lz77_match_len_aux (data : Array Nat) (i pos lookahead ml fuel : Nat) : Nat :=
  match fuel with
  | 0 => ml
  | fuel + 1 =>
    if pos + ml < data.size ∧ ml < lookahead ∧ data.get! (i + ml) = data.get! (pos + ml) then
      lz77_match_len_aux data i pos lookahead (ml + 1) fuel
    else ml

/-- Match length between window position `i` and current position `pos`. -/
def lz77_match_len (data : Array Nat) (i pos lookahead : Nat) : Nat :=
  lz77_match_len_aux data i pos lookahead 0 lookahead

/-- The window scan of `lz77_encode` (src/video_compression.py lines
110-121): scan `i` from `max 0 (pos - window)` to `pos - 1`, keeping the
pair `(pos - i, match_length)` whenever `match_length` strictly exceeds
the best so far (so the earliest position achieving the maximum — the
farthest offset — is kept).  Starts from `(0, 0)`. -/
def lz77_best_match (data : Array Nat) (pos window lookahead : Nat) : Nat × Nat :=
  (List.range' (pos - window) (pos - (pos - window))).foldl
    (fun best i =>
      let ml := lz77_match_len data i pos lookahead
      if best.2 < ml then (pos - i, ml) else best)
    (0, 0)

/-- Big-endian 2-byte encoding, as `offset.to_bytes(2, 'big')` for
offsets below 2^16 (offsets here are at most the window size 4096). -/
def natToBytes2 (n : Nat) : List Nat := [n / 256, n % 256]

/-- One iteration of the `while pos < len(data)` loop of `lz77_encode`
(src/video_compression.py lines 123-135): returns the emitted bytes and
the next position.  A match token `(offset, length, next)` is emitted
when the best match length exceeds 2 (`if best_match[1] > 2`), the next
symbol being omitted when the match ends exactly at the end of the data;
otherwise the literal token `(0, 0, data[pos])` is emitted. -/
def lz77_step (data : Array Nat) (pos window lookahead : Nat) : List Nat × Nat :=
  let bm := lz77_best_match data pos window lookahead
  if 2 < bm.2 then
    (natToBytes2 bm.1 ++ [bm.2] ++
      (if pos + bm.2 < data.size then [data.get! (pos + bm.2)] else []),
     pos + bm.2 + 1)
  else
    ([0, 0, data.get! pos], pos + 1)

/-- The encode loop; `fuel = data.size` suffices since the position
strictly increases at every step. -/
def lz77_encode_aux (data : Array Nat) (pos window lookahead fuel : Nat) : List Nat :=
  match fuel with
  | 0 => []
  | fuel + 1 =>
    if pos < data.size then
      let step := lz77_step data pos window lookahead
      step.1 ++ lz77_encode_aux data step.2 window lookahead fuel
    else []

/-- `lz77_encode(data, window_size, lookahead_size)`
(src/video_compression.py lines 103-137), producing the byte list. -/
def lz77_encode (data : List Nat) (window lookahead : Nat) : List Nat :=
  lz77_encode_aux (Array.mk data) 0 window lookahead data.length

/-! ## Python heapq over Huffman nodes

The Huffman builders of src/pdf_compression.py, src/video_compression.py,
src/text_lossless_compression.py and src/docx_compression.py all use
CPython's `heapq` on `HuffmanNode` objects whose `__lt__` compares
frequencies only.  The `_siftup`/`_siftdown` routines are transcribed
from CPython's heapq.py; `fuel` arguments bound the loops (heap size is
always sufficient).  Symbols are modelled as Nat (byte values, or
Unicode code points for the character-based variants). -/

/-- A Huffman tree node: leaves carry a symbol and its frequency,
internal nodes carry the merged frequency (`value`/`byte`/`char` is
`None` in the source). -/
inductive HNode where
  | leaf (value : Nat) (freq : Nat)
  | node (freq : Nat) (left : HNode) (right : HNode)
deriving DecidableEq, Repr

instance : Inhabited HNode := ⟨HNode.leaf 0 0⟩

/-- Frequency of a node. -/
def HNode.f : HNode → Nat
  | .leaf _ fr => fr
  | .node fr _ _ => fr

/-- `HuffmanNode.__lt__`: comparison by frequency only. -/
def hlt (a b : HNode) : Bool := a.f < b.f

/-- CPython `heapq._siftdown(heap, startpos, pos)`: bubble `newitem` up
towards `startpos` while it is smaller than its parent. -/
def siftdownLoop (a : Array HNode) (startpos pos : Nat) (newitem : HNode) (fuel : Nat) :
    Array HNode :=
  match fuel with
  | 0 => a.set! pos newitem
  | fuel + 1 =>
    if startpos < pos then
      let parentpos := (pos - 1) / 2
      let parent := a.get! parentpos
      if hlt newitem parent then
        siftdownLoop (a.set! pos parent) startpos parentpos newitem fuel
      else a.set! pos newitem
    else a.set! pos newitem

/-- The child-promoting loop of CPython `heapq._siftup`: move the
smaller child up until a leaf position is reached; returns the array and
the final position. -/
def siftupLoop (a : Array HNode) (pos : Nat) (fuel : Nat) : Array HNode × Nat :=
  match fuel with
  | 0 => (a, pos)
  | fuel + 1 =>
    let childpos := 2 * pos + 1
    if childpos < a.size then
      let rightpos := childpos + 1
      let childpos :=
        if rightpos < a.size ∧ ¬ hlt (a.get! childpos) (a.get! rightpos) then rightpos
        else childpos
      siftupLoop (a.set! pos (a.get! childpos)) childpos fuel
    else (a, pos)

/-- CPython `heapq._siftup(heap, pos)`. -/
def siftup (a : Array HNode) (pos : Nat) : Array HNode :=
  let newitem := a.get! pos
  let moved := siftupLoop a pos a.size
  siftdownLoop moved.1 pos moved.2 newitem moved.1.size

/-- CPython `heapq.heapify`: `for i in reversed(range(n//2)): _siftup(x, i)`. -/
def heapify (a : Array HNode) : Array HNode :=
  (List.range (a.size / 2)).reverse.foldl (fun acc i => siftup acc i) a

/-- CPython `heapq.heappush`. -/
def heappush (a : Array HNode) (item : HNode) : Array HNode :=
  let a2 := a.push item
  siftdownLoop a2 0 (a2.size - 1) item a2.size

/-- CPython `heapq.heappop`; `none` models the IndexError on an empty
heap. -/
def heappop (a : Array HNode) : Option (HNode × Array HNode) :=
  if a.size = 0 then none
  else
    let lastelt := a.get! (a.size - 1)
    let a2 := a.pop
    if a2.size = 0 then some (lastelt, a2)
    else
      let returnitem := a2.get! 0
      some (returnitem, siftup (a2.set! 0 lastelt) 0)

/-! ## Huffman tree and codebooks -/

/-- One update of a Python dict used as a counter: bump the count of an
existing key in place, or append a new key with count 1 (dicts preserve
insertion order). -/
def bumpCount : List (Nat × Nat) → Nat → List (Nat × Nat)
  | [], x => [(x, 1)]
  | (k, c) :: rest, x =>
    if k = x then (k, c + 1) :: rest else (k, c) :: bumpCount rest x

/-- `Counter(data)` / the manual `freq_map` loop of
src/pdf_compression.py lines 26-28: frequencies in first-occurrence
order. -/
def countFreq (data : List Nat) : List (Nat × Nat) := data.foldl bumpCount []

/-- The `while len(heap) > 1` merge loop of `build_huffman_tree`: pop two
smallest nodes, push their merge.  Every iteration shrinks the heap by
one, so `fuel = initial size` suffices. -/
def huffLoop (a : Array HNode) (fuel : Nat) : Array HNode :=
  match fuel with
  | 0 => a
  | fuel + 1 =>
    if 1 < a.size then
      match heappop a with
      | none => a
      | some (n1, a1) =>
        match heappop a1 with
        | none => a1
        | some (n2, a2) => huffLoop (heappush a2 (HNode.node (n1.f + n2.f) n1 n2)) fuel
    else a

/-- `build_huffman_tree(data)` (src/pdf_compression.py lines 24-41 =
src/video_compression.py lines 22-36; the character-based variants of
src/text_lossless_compression.py and src/docx_compression.py are the
same algorithm over code points).  `none` models the exception raised on
empty input (`heap[0]` of an empty list / the explicit ValueError). -/
def build_huffman_tree (data : List Nat) : Option HNode :=
  let heap := heapify (Array.mk ((countFreq data).map fun p => HNode.leaf p.1 p.2))
  (huffLoop heap heap.size).get? 0

/-- `generate_huffman_codes` (src/pdf_compression.py lines 43-56): DFS
appending '0' left and '1' right; a leaf stores the accumulated code
verbatim — a single-leaf tree therefore gets the empty code.  The list
is in dict insertion order (leaf visit order). -/
def generate_huffman_codes : HNode → String → List (Nat × String)
  | .leaf v _, code => [(v, code)]
  | .node _ l r, code =>
    generate_huffman_codes l (code ++ "0") ++ generate_huffman_codes r (code ++ "1")

/-- `build_huffman_codes` (src/video_compression.py lines 38-52 =
src/text_lossless_compression.py lines 47-61 = src/docx_compression.py
lines 150-164): like `generate_huffman_codes` but a leaf whose
accumulated code is empty receives `"0"`. -/
def build_huffman_codes : HNode → String → List (Nat × String)
  | .leaf v _, code => [(v, if code = "" then "0" else code)]
  | .node _ l r, code =>
    build_huffman_codes l (code ++ "0") ++ build_huffman_codes r (code ++ "1")

/-- `codes[value]` lookup; the default is never reached on symbols of
the encoded data. -/
def lookupCode (codes : List (Nat × String)) (v : Nat) : String :=
  (codes.lookup v).getD ""

/-- `int(byte_string, 2)` on a string of '0'/'1' characters. -/
def bitsVal (l : List Char) : Nat :=
  l.foldl (fun acc c => 2 * acc + (if c = '1' then 1 else 0)) 0

/-- The `for i in range(0, len(encoded), 8)` packing loop; `fuel` is the
string length. -/
def bytesOfBitsAux (l : List Char) (fuel : Nat) : List Nat :=
  match fuel, l with
  | 0, _ => []
  | _, [] => []
  | fuel + 1, l => bitsVal (l.take 8) :: bytesOfBitsAux (l.drop 8) fuel

/-- Pack a bit string into bytes, 8 bits at a time. -/
def bytesOfBits (s : String) : List Nat := bytesOfBitsAux s.data s.length

/-- `n.to_bytes(4, 'big')` for n below 2^32. -/
def natToBytes4 (n : Nat) : List Nat :=
  [n / 2 ^ 24 % 256, n / 2 ^ 16 % 256, n / 2 ^ 8 % 256, n % 256]

/-- `s.encode()`: UTF-8 bytes; every string serialized by the encoder
here is ASCII, so the bytes are the code points. -/
def strBytes (s : String) : List Nat := s.data.map Char.toNat

/-- The single-quote character, used by Python `repr` of a string. -/
def sq : String := String.singleton (Char.ofNat 39)

/-- `str(codes)`: Python repr of a dict mapping ints to strings of
'0'/'1' characters, e.g. a dict with key 97 and code 010 prints as
\x7b97: '010'\x7d. -/
def reprCodes (codes : List (Nat × String)) : String :=
  "\x7b" ++
    String.intercalate ", " (codes.map fun p => toString p.1 ++ ": " ++ sq ++ p.2 ++ sq) ++
  "\x7d"

/-- `huffman_encode(data)` of src/pdf_compression.py lines 58-81: build
tree and codes (via `generate_huffman_codes`), concatenate the codes,
pad with `8 - len % 8` zero bits, pack into bytes, prepend the padding
byte, append the 4-byte length of `str(codes)` and its bytes.  `none`
models the exception on empty input. -/
def pdf_huffman_encode (data : List Nat) : Option (List Nat) :=
  match build_huffman_tree data with
  | none => none
  | some root =>
    let codes := generate_huffman_codes root ""
    let encoded := String.join (data.map fun v => lookupCode codes v)
    let padding := 8 - encoded.length % 8
    let padded := encoded ++ String.mk (List.replicate padding '0')
    let codes_str := reprCodes codes
    some (padding :: bytesOfBits padded ++ natToBytes4 codes_str.length ++ strBytes codes_str)

/-- `huffman_encode(data)` of src/video_compression.py lines 54-77:
identical to the PDF variant except that the codebook comes from
`build_huffman_codes` (single-leaf trees get code "0"). -/
def video_huffman_encode (data : List Nat) : Option (List Nat) :=
  match build_huffman_tree data with
  | none => none
  | some root =>
    let codes := build_huffman_codes root ""
    let encoded := String.join (data.map fun v => lookupCode codes v)
    let padding := 8 - encoded.length % 8
    let padded := encoded ++ String.mk (List.replicate padding '0')
    let codes_str := reprCodes codes
    some (padding :: bytesOfBits padded ++ natToBytes4 codes_str.length ++ strBytes codes_str)

/-- The run accumulation of `run_length_encode`
(src/pdf_compression.py lines 83-105 = src/video_compression.py lines
79-101): on a change of value, emit the value byte followed by the
ASCII digits of the run count. -/
def run_length_encode_aux (current count : Nat) : List Nat → List Nat
  | [] => current :: strBytes (toString count)
  | v :: vs =>
    if v = current then run_length_encode_aux current (count + 1) vs
    else (current :: strBytes (toString count)) ++ run_length_encode_aux v 1 vs

/-- `run_length_encode(data)`; empty input yields empty output. -/
def run_length_encode : List Nat → List Nat
  | [] => []
  | v :: vs => run_length_encode_aux v 1 vs

/-! ## Text compressors (src/text_lossy_compression.py,
src/text_lossless_compression.py, src/text_compression.py)

Python regex classes are modelled at ASCII scope (the inputs of all
theorems below are ASCII); Python float arithmetic on sizes is modelled
exactly over ℚ. -/

/-- Python regex `\s` at ASCII scope: space, tab, newline, carriage
return, vertical tab, form feed. -/
def isPySpace (c : Char) : Bool :=
  c = ' ' ∨ c = '\t' ∨ c = '\n' ∨ c = '\r' ∨ c = Char.ofNat 11 ∨ c = Char.ofNat 12

/-- Python regex `\w` at ASCII scope: letters, digits, underscore. -/
def isPyWord (c : Char) : Bool :=
  ('a' ≤ c ∧ c ≤ 'z') ∨ ('A' ≤ c ∧ c ≤ 'Z') ∨ ('0' ≤ c ∧ c ≤ '9') ∨ c = '_'

/-- The scan of `re.sub(r'\s+', ' ', text)`: each maximal run of
whitespace becomes one space. -/
def collapseWsAux (inRun : Bool) : List Char → List Char
  | [] => []
  | c :: cs =>
    if isPySpace c then
      if inRun then collapseWsAux true cs else ' ' :: collapseWsAux true cs
    else c :: collapseWsAux false cs

/-- `re.sub(r'\s+', ' ', text)` (src/text_lossy_compression.py line 41). -/
def collapse_whitespace (s : String) : String := String.mk (collapseWsAux false s.data)

/-- `re.sub(r'[^\w\s]', '', text)` (src/text_lossy_compression.py
line 45): keep only word characters and whitespace. -/
def remove_punctuation (s : String) : String :=
  String.mk (s.data.filter fun c => isPyWord c ∨ isPySpace c)

/-- `text.lower()` (src/text_lossy_compression.py line 49), at ASCII
scope. -/
def to_lower (s : String) : String := String.mk (s.data.map Char.toLower)

/-- The metadata dict of `compress_text_lossy`; the empty-input branch
returns a dict without the quality_factor and success keys, modelled by
`none`. -/
structure LossyMeta where
  algorithm : String
  original_size : Nat
  compressed_size : Nat
  ratio : ℚ
  quality_factor : Option ℚ
  success : Option Bool
deriving DecidableEq, Repr

/-- `compress_text_lossy(text, quality)` (src/text_lossy_compression.py
lines 7-69): empty text returns zeroed metadata; an out-of-range quality
raises (the raise is re-wrapped as RuntimeError by the outer handler,
modelled as `.error`); otherwise whitespace is collapsed, punctuation
removed when quality < 70, lowercased when quality < 50, and sizes are
UTF-8 byte counts with `ratio = original/compressed` (1 when the
compressed size is 0) and `success = True`.  The float comparisons
`quality_factor < 0.7` and `quality_factor < 0.5` of the source are
equivalent to `quality < 70` and `quality < 50` on integer qualities in
[1, 100]. -/
def compress_text_lossy (text : String) (quality : Nat) :
    Except String (String × LossyMeta) :=
  if text = "" then
    .ok ("", ⟨"Lossy Text Compression", 0, 0, 0, none, none⟩)
  else if ¬ (1 ≤ quality ∧ quality ≤ 100) then
    .error "Quality must be between 1 and 100"
  else
    let qf : ℚ := (quality : ℚ) / 100
    let t1 := collapse_whitespace text
    let t2 := if quality < 70 then remove_punctuation t1 else t1
    let t3 := if quality < 50 then to_lower t2 else t2
    let osz := text.utf8ByteSize
    let csz := t3.utf8ByteSize
    .ok (t3, ⟨"Lossy Text Compression", osz, csz,
      if 0 < csz then (osz : ℚ) / (csz : ℚ) else 1, some qf, some true⟩)

/-- The metadata dict of `compress_text_lossless`; the empty-input
branch has no huffman_codes key, modelled by `none`. -/
structure LosslessMeta where
  algorithm : String
  original_size : Nat
  compressed_size : Nat
  ratio : ℚ
  huffman_codes : Option (List (Nat × String))
  success : Bool
deriving DecidableEq, Repr

/-- `compress_text_lossless(text, quality)`
(src/text_lossless_compression.py lines 63-116): empty text returns
success with all sizes 0 and ratio 0 without building any tree;
otherwise Huffman codes are built over the characters (as code points),
the text is encoded as a bit string, and
`compressed_size = (len(encoded) + 7) // 8` with
`ratio = original/compressed` (1 when the compressed size is 0).
`quality` is unused, kept for API consistency. -/
def compress_text_lossless (text : String) (quality : Nat) :
    Except String (String × LosslessMeta) :=
  if text = "" then
    .ok ("", ⟨"Lossless Text Compression (Huffman)", 0, 0, 0, none, true⟩)
  else
    match build_huffman_tree (text.data.map Char.toNat) with
    | none => .error "Empty text or no valid characters found"
    | some tree =>
      let codes := build_huffman_codes tree ""
      let encoded := String.join (text.data.map fun c => lookupCode codes c.toNat)
      let osz := text.utf8ByteSize
      let csz := (encoded.length + 7) / 8
      .ok (encoded, ⟨"Lossless Text Compression (Huffman)", osz, csz,
        if 0 < csz then (osz : ℚ) / (csz : ℚ) else 1, some codes, true⟩)

/-- The dict returned by `compress_text` (src/text_compression.py). -/
structure TextResult where
  success : Bool
  error : Option String
  algorithm : String
  original_size : Nat
  compressed_size : Nat
  ratio : ℚ
deriving DecidableEq, Repr

/-- `compress_text(input_path, output_path, is_lossy, quality)`
(src/text_compression.py lines 10-100), modelled after the file has been
read: `text` is the file content.  Quality is validated first; an empty
file then raises ValueError "Input file is empty", caught by the
ValueError handler which returns `success = False` with zeroed sizes
(lines 37-38 and 81-90); otherwise the chosen compressor runs and its
metadata is returned with `success = True`. -/
def compress_text (text : String) (is_lossy : Bool) (quality : Nat) : TextResult :=
  if ¬ (1 ≤ quality ∧ quality ≤ 100) then
    ⟨false, some "Validation error: Quality must be between 1 and 100",
      "Text Compression", 0, 0, 0⟩
  else if text = "" then
    ⟨false, some "Validation error: Input file is empty", "Text Compression", 0, 0, 0⟩
  else if is_lossy then
    match compress_text_lossy text quality with
    | .ok (_, m) => ⟨true, none, m.algorithm, m.original_size, m.compressed_size, m.ratio⟩
    | .error e => ⟨false, some ("Unknown error: " ++ e), "Text Compression", 0, 0, 0⟩
  else
    match compress_text_lossless text quality with
    | .ok (_, m) => ⟨true, none, m.algorithm, m.original_size, m.compressed_size, m.ratio⟩
    | .error e => ⟨false, some ("Unknown error: " ++ e), "Text Compression", 0, 0, 0⟩

/-! ## Strategy orchestrator (src/video_compression.py compress_video,
src/docx_compression.py compress_docx, src/pdf_compression.py
compress_pdf)

A candidate run is modelled by its observable outcome: `some s` when the
candidate produced a temp file measured at `s` bytes, `none` when it
raised.  Candidate names are stood in for by candidate indices. -/

/-- Outcome dict of a compression call: either the failure dict
(success False with an error message) or the success dict. -/
inductive CResult where
  | failure (error : String)
  | success (original_size compressed_size : Nat) (ratio : ℚ) (algorithm : Option Nat)
deriving DecidableEq, Repr

/-- The accumulator loop of `compress_video` lines 392-481 (also
`compress_pdf` lines 294-459, `compress_docx` lines 353-385):
`best_compressed_size` starts at the original size and `best_algorithm`
at None; a measured size replaces the accumulator iff strictly smaller;
an exception leaves it unchanged.  `i` is the index of the next
candidate. -/
def selectAux (i best : Nat) (bestIdx : Option Nat) : List (Option Nat) → Nat × Option Nat
  | [] => (best, bestIdx)
  | none :: cs => selectAux (i + 1) best bestIdx cs
  | some s :: cs =>
    if s < best then selectAux (i + 1) s (some i) cs
    else selectAux (i + 1) best bestIdx cs

/-- Final accumulator of the candidate loop. -/
def selectBest (orig : Nat) (cands : List (Option Nat)) : Nat × Option Nat :=
  selectAux 0 orig none cands

/-- The result assembly of `compress_video` lines 489-504: failure when
`best_compressed_size >= original_size`, else the success dict with
`ratio = original_size / best_compressed_size if best > 0 else 1`. -/
def compress_video_model (orig : Nat) (cands : List (Option Nat)) : CResult :=
  if orig ≤ (selectBest orig cands).1 then
    CResult.failure "Could not achieve compression"
  else
    CResult.success orig (selectBest orig cands).1
      (if 0 < (selectBest orig cands).1 then
        (orig : ℚ) / ((selectBest orig cands).1 : ℚ)
       else 1)
      (selectBest orig cands).2

/-! ## compress_docx exception handling (src/docx_compression.py lines
356-385)

In the docx candidate loop, `temp_output` is first assigned at line 365
— after `Document(input_path)` (line 359) and `algo_func(temp_doc)`
(line 362).  The except handler (lines 381-385) evaluates
`os.path.exists(temp_output)`; if no prior iteration reached line 365,
that name is unbound and the handler itself raises UnboundLocalError,
which propagates to the function-level handler and aborts the whole
call. -/

/-- One candidate's observable behaviour in the docx loop. -/
inductive DocxEvent where
  | algoRaises
  | saveRaises
  | ok (size : Nat)
deriving DecidableEq, Repr

/-- The docx candidate loop with the handler's `temp_output` binding
state: `bound` records whether line 365 has executed in some iteration.
`algoRaises` (an exception before line 365) aborts the call via
UnboundLocalError when `temp_output` is still unbound, and is otherwise
logged and skipped; `saveRaises` (an exception after line 365) is
logged and skipped; `ok s` measures a temp file of `s` bytes and updates
the accumulator exactly as `selectAux` does. -/
def docxLoop (bound : Bool) (best : Nat) (bestIdx : Option Nat) (i orig : Nat) :
    List DocxEvent → CResult
  | [] =>
    if orig ≤ best then CResult.failure "Could not achieve compression"
    else
      CResult.success orig best (if 0 < best then (orig : ℚ) / (best : ℚ) else 1) bestIdx
  | .algoRaises :: es =>
    if bound then docxLoop bound best bestIdx (i + 1) orig es
    else CResult.failure "UnboundLocalError"
  | .saveRaises :: es => docxLoop true best bestIdx (i + 1) orig es
  | .ok s :: es =>
    if s < best then docxLoop true s (some i) (i + 1) orig es
    else docxLoop true best bestIdx (i + 1) orig es

/-- `compress_docx(input_path, output_path, is_lossy)` outcome
(src/docx_compression.py lines 329-408) as a function of the candidate
behaviours. -/
def compress_docx_model (orig : Nat) (events : List DocxEvent) : CResult :=
  docxLoop false orig none 0 orig events

/-! ## Temp-file promotion (src/video_compression.py lines 457-481,
src/pdf_compression.py lines 298-495)

The file system visible to one compression call is the candidate temp
path and the final output path; a blob is modelled by its size. -/

/-- Contents of the temp path and the output path (`none` = absent). -/
structure FSState where
  temp : Option Nat
  output : Option Nat
deriving DecidableEq, Repr

/-- One candidate's observable behaviour in the video/pdf loop:
`exc` = the candidate raised (its partial temp file, if any, is removed
by the handler); `ok s` = it wrote a temp file of `s` bytes. -/
inductive VEvent where
  | exc
  | ok (size : Nat)
deriving DecidableEq, Repr

/-- The per-candidate file operations of `compress_video` lines 457-481
(= `compress_pdf` lines 438-459): the candidate writes the temp file;
if its size is strictly below the best so far, `os.replace` moves the
temp blob to the output path, else `os.remove` deletes it; on an
exception the handler removes any temp file. -/
def videoFSAux (fs : FSState) (best : Nat) (bestIdx : Option Nat) (i : Nat) :
    List VEvent → FSState × Nat × Option Nat
  | [] => (fs, best, bestIdx)
  | .exc :: es => videoFSAux { fs with temp := none } best bestIdx (i + 1) es
  | .ok s :: es =>
    if s < best then
      videoFSAux { temp := none, output := some s } s (some i) (i + 1) es
    else
      videoFSAux { fs with temp := none } best bestIdx (i + 1) es

/-- `compress_video` file-system outcome: the final state of the two
paths, and the returned dict (lines 489-504). -/
def video_fs_model (orig : Nat) (events : List VEvent) : FSState × CResult :=
  ((videoFSAux ⟨none, none⟩ orig none 0 events).1,
   if orig ≤ (videoFSAux ⟨none, none⟩ orig none 0 events).2.1 then
     CResult.failure "Could not achieve compression"
   else
     CResult.success orig (videoFSAux ⟨none, none⟩ orig none 0 events).2.1
       (if 0 < (videoFSAux ⟨none, none⟩ orig none 0 events).2.1 then
         (orig : ℚ) / ((videoFSAux ⟨none, none⟩ orig none 0 events).2.1 : ℚ)
        else 1)
       (videoFSAux ⟨none, none⟩ orig none 0 events).2.2)

/-- `compress_pdf` file-system outcome (lines 298-504): the same
candidate loop, but when no candidate improved, a final
maximum-compression attempt writes its output — of size `fallback` —
directly to the output path (line 475) before any size comparison; only
then is `fallback < original_size` checked, and on failure the call
returns success False with the fallback output still at the output
path. -/
def pdf_fs_model (orig : Nat) (events : List VEvent) (fallback : Nat) :
    FSState × CResult :=
  if orig ≤ (videoFSAux ⟨none, none⟩ orig none 0 events).2.1 then
    if fallback < orig then
      (⟨(videoFSAux ⟨none, none⟩ orig none 0 events).1.temp, some fallback⟩,
       CResult.success orig fallback
         (if 0 < fallback then (orig : ℚ) / (fallback : ℚ) else 1) none)
    else
      (⟨(videoFSAux ⟨none, none⟩ orig none 0 events).1.temp, some fallback⟩,
       CResult.failure "Could not achieve compression")
  else
    ((videoFSAux ⟨none, none⟩ orig none 0 events).1,
     CResult.success orig (videoFSAux ⟨none, none⟩ orig none 0 events).2.1
       (if 0 < (videoFSAux ⟨none, none⟩ orig none 0 events).2.1 then
         (orig : ℚ) / ((videoFSAux ⟨none, none⟩ orig none 0 events).2.1 : ℚ)
        else 1)
       (videoFSAux ⟨none, none⟩ orig none 0 events).2.2)

/-! ## PDF candidate isolation (src/pdf_compression.py lines 298-459)

In the lossless branch of `compress_pdf`, every algorithm in the loop
has `compress_content = True` and, for each page of the one shared
`PdfReader`, assigns the winning compressed bytes to
`page['/Contents']._data` (line 378).  The pages iterated by the next
algorithm are the same objects, so each candidate observes the content
stream left by its predecessor (modelled here for a content stream
without stream filters, for which `get_data()` returns `_data`).  The
writer-side `compress_streams` pass on `temp_writer.pages` is outside
this model. -/

/-- The `best_size = float('inf')` scan of lines 366-373: the first
candidate of minimal length wins (strict `<`). -/
def pickAux (best : List Nat) : List (List Nat) → List Nat
  | [] => best
  | c :: cs => if c.length < best.length then pickAux c cs else pickAux best cs

/-- First-minimum selection over a candidate list. -/
def pick_first_min (cands : List (List Nat)) : List Nat :=
  match cands with
  | [] => []
  | c :: cs => pickAux c cs

/-- One algorithm's `compress_content` pass over a page's current
content (lines 354-378): try Huffman, RLE and LZ77, keep the smallest,
and overwrite the page content iff the winner is non-empty and strictly
smaller (`if best_compressed and best_size < len(content)`).  An empty
content is skipped (`if content:`); an exception inside the block
(modelled by the `none` branch) leaves the content unchanged. -/
def pdf_content_step (content : List Nat) : List Nat :=
  if content = [] then content
  else
    match pdf_huffman_encode content with
    | none => content
    | some h =>
      let best := pick_first_min [h, run_length_encode content, lz77_encode content 4096 64]
      if best ≠ [] ∧ best.length < content.length then best else content

/-- The content stream observed by candidate `k` (0-based) of the
lossless loop: candidate 0 sees the original, each later candidate sees
the result of its predecessor's pass. -/
def pdf_observed_content (orig : List Nat) : Nat → List Nat
  | 0 => orig
  | k + 1 => pdf_content_step (pdf_observed_content orig k)

/-- Every index scanned by the window fold lies strictly below `pos`, so
whenever the best match has non-zero length its offset `pos - i` is at
least 1. -/
theorem lz77_best_match_offset_pos (data : Array Nat) (pos window lookahead : Nat)
    (h : (lz77_best_match data pos window lookahead).2 ≠ 0) :
    1 ≤ (lz77_best_match data pos window lookahead).1 := by
  have key : ∀ (l : List Nat) (best : Nat × Nat),
      (best.2 ≠ 0 → 1 ≤ best.1) → (∀ i ∈ l, i < pos) →
      ((l.foldl
          (fun best i =>
            let ml := lz77_match_len data i pos lookahead
            if best.2 < ml then (pos - i, ml) else best) best).2 ≠ 0 →
        1 ≤ (l.foldl
          (fun best i =>
            let ml := lz77_match_len data i pos lookahead
            if best.2 < ml then (pos - i, ml) else best) best).1) := by
    intro l
    induction l with
    | nil => intro best hb _; exact hb
    | cons a as ih =>
      intro best hb hmem
      simp only [List.foldl_cons]
      apply ih
      · dsimp only
        split
        · intro _
          have ha : a < pos := hmem a (by simp)
          show 1 ≤ pos - a
          omega
        · exact hb
      · intro i hi; exact hmem i (List.mem_cons_of_mem a hi)
  unfold lz77_best_match at h ⊢
  refine key _ _ ?_ ?_ h
  · intro hc; exact absurd rfl hc
  · intro i hi
    have hm := List.mem_range'_1.mp hi
    omega

/-! ### C10 -/

/-- C10 counterexample: the claim says the scaled quantization matrix has
strictly positive entries for every quality in [1, 100]; but at
quality = 100 the scale factor is `(100 - 100)/50 = 0`, so every entry —
in particular entry (0, 0) — is 0, and the division that
`apply_quantization` performs is a division by zero. -/
theorem c10_quality_100_zero_entry : scaled_q_matrix 100 0 0 = 0 := by
  norm_num [scaled_q_matrix, quant_scale, q_matrix_entry, q_matrix_base]

/-- C10 (amended): for every quality in [1, 99] and every position of the
8×8 block, the quality-scaled quantization matrix used by
`apply_quantization` has a strictly positive entry, so dividing the DCT
coefficients by it is well-defined. -/
theorem c10_positive_for_quality_le_99 (quality i j : Nat)
    (h1 : 1 ≤ quality) (h2 : quality ≤ 99) (hi : i < 8) (hj : j < 8) :
    0 < scaled_q_matrix quality i j := by
  have hbase : ∀ a : Fin 8, ∀ b : Fin 8, 0 < q_matrix_entry a b := by decide
  have hb : 0 < q_matrix_entry i j := hbase ⟨i, hi⟩ ⟨j, hj⟩
  have hscale : 0 < quant_scale quality := by
    unfold quant_scale
    split
    · apply div_pos (by norm_num)
      exact_mod_cast h1
    · apply div_pos _ (by norm_num)
      have : (quality : ℚ) ≤ 99 := by exact_mod_cast h2
      linarith
  have hbq : (0 : ℚ) < (q_matrix_entry i j : ℚ) := by exact_mod_cast hb
  exact mul_pos hbq hscale

/-- Witness for C10: quality 50 and entry (0, 0). -/
theorem c10_positive_for_quality_le_99_witness :
    (1 ≤ 50 ∧ 50 ≤ 99 ∧ 0 < 8 ∧ 0 < 8) ∧ 0 < scaled_q_matrix 50 0 0 :=
  ⟨by norm_num,
   c10_positive_for_quality_le_99 50 0 0 (by norm_num) (by norm_num)
     (by norm_num) (by norm_num)⟩

/-! ### C8 -/

/-- C8 counterexample: the claim says a literal token is emitted iff the
longest window match length is ≤ 3.  On input `[1,2,3,1,2,3,9]` at
position 3 the longest window match has length exactly 3, yet
`lz77_encode` emits the match token `(offset 3, length 3, next 9)` — not
the literal `(0, 0, 1)` — because the source tests `best_match[1] > 2`. -/
theorem c8_length_three_match_not_literal :
    (lz77_best_match (Array.mk [1, 2, 3, 1, 2, 3, 9]) 3 4096 64).2 = 3
    ∧ (lz77_step (Array.mk [1, 2, 3, 1, 2, 3, 9]) 3 4096 64).1 ≠ [0, 0, 1]
    ∧ lz77_step (Array.mk [1, 2, 3, 1, 2, 3, 9]) 3 4096 64 = ([0, 3, 3, 9], 7) := by
  decide

/-- C8 (amended): at every encoding position, LZ77 encode emits a
literal `(0, 0, symbol)` token iff the longest window match length is
≤ 2 (a match token requires length ≥ 3); otherwise it emits the
`(offset, length, nextSymbol)` token — the next symbol omitted when the
match reaches the end of the input — and advances past the match plus
one symbol. -/
theorem c8_literal_iff_best_match_le_two (data : Array Nat)
    (pos window lookahead : Nat) (hpos : pos < data.size) :
    ((lz77_best_match data pos window lookahead).2 ≤ 2 →
      lz77_step data pos window lookahead = ([0, 0, data.get! pos], pos + 1))
    ∧ (2 < (lz77_best_match data pos window lookahead).2 →
      lz77_step data pos window lookahead =
        (natToBytes2 (lz77_best_match data pos window lookahead).1 ++
          [(lz77_best_match data pos window lookahead).2] ++
          (if pos + (lz77_best_match data pos window lookahead).2 < data.size
            then [data.get! (pos + (lz77_best_match data pos window lookahead).2)]
            else []),
         pos + (lz77_best_match data pos window lookahead).2 + 1))
    ∧ ((lz77_step data pos window lookahead).1 = [0, 0, data.get! pos] ↔
        (lz77_best_match data pos window lookahead).2 ≤ 2) := by
  refine ⟨?_, ?_, ?_, ?_⟩
  · intro h
    unfold lz77_step
    rw [if_neg (by omega)]
  · intro h
    unfold lz77_step
    rw [if_pos h]
  · intro hlit
    by_contra hgt
    push_neg at hgt
    have hoff : 1 ≤ (lz77_best_match data pos window lookahead).1 :=
      lz77_best_match_offset_pos data pos window lookahead (by omega)
    unfold lz77_step at hlit
    rw [if_pos hgt] at hlit
    dsimp only at hlit
    rcases Nat.lt_or_ge (pos + (lz77_best_match data pos window lookahead).2)
        data.size with hin | hout
    · rw [if_pos hin] at hlit
      simp [natToBytes2] at hlit
    · rw [if_neg (by omega)] at hlit
      simp [natToBytes2] at hlit
      omega
  · intro h
    unfold lz77_step
    rw [if_neg (by omega)]

/-- Witness for C8: position 0 of `[1,2,3,1,2,3,9]` has an empty window,
so the best match length is 0 ≤ 2 and a literal token is emitted. -/
theorem c8_literal_iff_best_match_le_two_witness :
    (0 : Nat) < (Array.mk [1, 2, 3, 1, 2, 3, 9] : Array Nat).size
    ∧ (lz77_best_match (Array.mk [1, 2, 3, 1, 2, 3, 9]) 0 4096 64).2 ≤ 2
    ∧ lz77_step (Array.mk [1, 2, 3, 1, 2, 3, 9]) 0 4096 64 = ([0, 0, 1], 1) :=
  ⟨by decide, by decide,
   (c8_literal_iff_best_match_le_two (Array.mk [1, 2, 3, 1, 2, 3, 9]) 0 4096 64
      (by decide)).1 (by decide)⟩

/-! ### C1 -/

/-- C1: the Huffman round-trip `decode(encode(S)) == S` cannot hold: the
repository implements no Huffman decode at all, and the PDF variant of
`huffman_encode` is not even injective — a single-symbol alphabet gets
the empty code from `generate_huffman_codes` and no symbol count is
stored, so the byte sequences [97] and [97, 97] encode to the identical
blob (padding byte 8, one zero byte, and the serialized codebook, which
is moreover appended rather than prepended).  The video variant, whose
codebook assigns "0" to a single-symbol alphabet, does distinguish the
two inputs. -/
theorem c1_pdf_huffman_encode_not_injective :
    pdf_huffman_encode [97] = pdf_huffman_encode [97, 97]
    ∧ pdf_huffman_encode [97] =
        some [8, 0, 0, 0, 0, 8, 123, 57, 55, 58, 32, 39, 39, 125]
    ∧ video_huffman_encode [97] ≠ video_huffman_encode [97, 97] := by
  decide

/-! ### C9 -/

/-- C9: on the single-symbol input [97, 97], the codebook derived by the
PDF variant `generate_huffman_codes` maps the symbol to the empty
string, not to "0" as the claim states; the variant
`build_huffman_codes` used by the text/video/docx modules does map it to
"0". -/
theorem c9_pdf_single_symbol_empty_code :
    (build_huffman_tree [97, 97]).map (fun t => generate_huffman_codes t "") =
      some [(97, "")]
    ∧ (build_huffman_tree [97, 97]).map (fun t => build_huffman_codes t "") =
      some [(97, "0")] := by
  decide

/-! ### C2 -/

/-- C2 counterexample: `compress_text_lossy("abc", 100)` returns
`success = True` while `compressed_size = original_size = 3` — no strict
reduction, contradicting the claimed invariant. -/
theorem c2_lossy_success_without_reduction :
    (compress_text_lossy "abc" 100).toOption.map
      (fun p => (p.1, p.2.success, p.2.original_size, p.2.compressed_size)) =
      some ("abc", some true, 3, 3) := by
  decide

/-! ### C7 -/

/-- C7 counterexample: the `compress_text` entry point rejects an empty
payload with `success = False` and the error "Input file is empty"
(src/text_compression.py lines 37-38 and 81-90), in both modes — not
`success = True` as the claim states. -/
theorem c7_compress_text_rejects_empty :
    compress_text "" false 50 =
      ⟨false, some "Validation error: Input file is empty", "Text Compression", 0, 0, 0⟩
    ∧ compress_text "" true 50 =
      ⟨false, some "Validation error: Input file is empty", "Text Compression", 0, 0, 0⟩ := by
  exact ⟨rfl, rfl⟩

/-- C7 (amended): an empty payload handed directly to
`compress_text_lossless` yields `success = True` with
`original_size = 0`, `compressed_size = 0`, `ratio = 0` and no Huffman
tree is built; `compress_text_lossy` yields the same zeroed metadata
without a success flag; but the `compress_text` entry point returns
`success = False` for an empty file before either compressor runs, for
every quality. -/
theorem c7_empty_payload_direct_compressors (quality : Nat) :
    compress_text_lossless "" quality =
      .ok ("", ⟨"Lossless Text Compression (Huffman)", 0, 0, 0, none, true⟩)
    ∧ compress_text_lossy "" quality =
      .ok ("", ⟨"Lossy Text Compression", 0, 0, 0, none, none⟩)
    ∧ (compress_text "" true quality).success = false
    ∧ (compress_text "" false quality).success = false := by
  refine ⟨rfl, rfl, ?_, ?_⟩ <;>
  · unfold compress_text
    split
    · rfl
    · rfl

/-! ### Orchestrator lemmas -/

/-- The accumulator never increases. -/
theorem selectAux_le (l : List (Option Nat)) :
    ∀ i b bi, (selectAux i b bi l).1 ≤ b := by
  induction l with
  | nil => intro i b bi; exact le_refl b
  | cons c cs ih =>
    intro i b bi
    cases c with
    | none => exact ih (i + 1) b bi
    | some s =>
      show (if s < b then selectAux (i + 1) s (some i) cs
            else selectAux (i + 1) b bi cs).1 ≤ b
      split
      · exact le_trans (ih _ _ _) (le_of_lt (by assumption))
      · exact ih _ _ _

/-- The final accumulator is a lower bound of every measured size. -/
theorem selectAux_le_measured (l : List (Option Nat)) :
    ∀ i b bi k s, l.get? k = some (some s) → (selectAux i b bi l).1 ≤ s := by
  induction l with
  | nil => intro i b bi k s h; simp at h
  | cons c cs ih =>
    intro i b bi k s h
    cases k with
    | zero =>
      have hc : c = some s := by simpa using h
      subst hc
      show (if s < b then selectAux (i + 1) s (some i) cs
            else selectAux (i + 1) b bi cs).1 ≤ s
      split
      · exact selectAux_le cs _ _ _
      · exact le_trans (selectAux_le cs _ _ _) (by omega)
    | succ k2 =>
      cases c with
      | none => exact ih (i + 1) b bi k2 s h
      | some s0 =>
        show (if s0 < b then selectAux (i + 1) s0 (some i) cs
              else selectAux (i + 1) b bi cs).1 ≤ s
        split
        · exact ih _ _ _ k2 s h
        · exact ih _ _ _ k2 s h

/-- Main characterization of the accumulator loop: either no candidate
improved on `b` (accumulator returned unchanged, every measured size is
at least `b`), or the accumulator holds a strictly smaller measured size
together with the index of the earliest candidate achieving it. -/
theorem selectAux_main (l : List (Option Nat)) :
    ∀ i b bi,
      ((selectAux i b bi l).1 = b ∧ (selectAux i b bi l).2 = bi ∧
        ∀ k s, l.get? k = some (some s) → b ≤ s)
      ∨ ((selectAux i b bi l).1 < b ∧
        ∃ k, (selectAux i b bi l).2 = some (i + k) ∧
          l.get? k = some (some ((selectAux i b bi l).1)) ∧
          ∀ m s, m < k → l.get? m = some (some s) → (selectAux i b bi l).1 < s) := by
  induction l with
  | nil =>
    intro i b bi
    refine Or.inl ⟨rfl, rfl, ?_⟩
    intro k s h
    simp at h
  | cons c cs ih =>
    intro i b bi
    cases c with
    | none =>
      have e : selectAux i b bi (none :: cs) = selectAux (i + 1) b bi cs := rfl
      rw [e]
      rcases ih (i + 1) b bi with ⟨h1, h2, h3⟩ | ⟨h1, k, h2, h3, h4⟩
      · refine Or.inl ⟨h1, h2, ?_⟩
        intro k s hk
        cases k with
        | zero => simp at hk
        | succ k2 => exact h3 k2 s hk
      · refine Or.inr ⟨h1, k + 1, ?_, h3, ?_⟩
        · rw [h2]
          have : i + 1 + k = i + (k + 1) := by omega
          rw [this]
        · intro m s hm hms
          cases m with
          | zero => simp at hms
          | succ m2 => exact h4 m2 s (by omega) hms
    | some s0 =>
      have e : selectAux i b bi (some s0 :: cs) =
          if s0 < b then selectAux (i + 1) s0 (some i) cs
          else selectAux (i + 1) b bi cs := rfl
      rw [e]
      by_cases hs : s0 < b
      · rw [if_pos hs]
        rcases ih (i + 1) s0 (some i) with ⟨h1, h2, h3⟩ | ⟨h1, k, h2, h3, h4⟩
        · refine Or.inr ⟨by omega, 0, ?_, ?_, ?_⟩
          · rw [h2, Nat.add_zero]
          · rw [h1]; rfl
          · intro m s hm
            exact absurd hm (Nat.not_lt_zero m)
        · refine Or.inr ⟨by omega, k + 1, ?_, h3, ?_⟩
          · rw [h2]
            have : i + 1 + k = i + (k + 1) := by omega
            rw [this]
          · intro m s hm hms
            cases m with
            | zero =>
              have hse : s0 = s := by simpa using hms
              omega
            | succ m2 => exact h4 m2 s (by omega) hms
      · rw [if_neg hs]
        rcases ih (i + 1) b bi with ⟨h1, h2, h3⟩ | ⟨h1, k, h2, h3, h4⟩
        · refine Or.inl ⟨h1, h2, ?_⟩
          intro k s hk
          cases k with
          | zero =>
            have hse : s0 = s := by simpa using hk
            omega
          | succ k2 => exact h3 k2 s hk
        · refine Or.inr ⟨h1, k + 1, ?_, h3, ?_⟩
          · rw [h2]
            have : i + 1 + k = i + (k + 1) := by omega
            rw [this]
          · intro m s hm hms
            cases m with
            | zero =>
              have hse : s0 = s := by simpa using hms
              omega
            | succ m2 => exact h4 m2 s (by omega) hms

/-- C2 (amended): the claimed invariant holds for the orchestrators: a
`compress_video`-style call that returns `success = True` has
`compressed_size` strictly below `original_size`, and its ratio equals
`original_size / compressed_size` whenever the compressed size is
non-zero (the source substitutes 1 when it is zero).  The direct text
compressors set `success = True` without requiring a strict reduction
(see the counterexample). -/
theorem c2_orchestrator_invariant (orig : Nat) (cands : List (Option Nat))
    (os cs : Nat) (r : ℚ) (a : Option Nat)
    (h : compress_video_model orig cands = CResult.success os cs r a) :
    os = orig ∧ cs < orig ∧ (0 < cs → r = (orig : ℚ) / (cs : ℚ)) := by
  unfold compress_video_model at h
  split at h
  · exact CResult.noConfusion h
  · next hcond =>
    injection h with h1 h2 h3 h4
    subst h1
    subst h2
    refine ⟨rfl, by omega, ?_⟩
    intro hpos
    rw [if_pos hpos] at h3
    exact h3.symm

/-- Witness for C2 (amended): a call with one candidate measured at 4
against an original size of 10. -/
theorem c2_orchestrator_invariant_witness :
    compress_video_model 10 [some 4] =
      CResult.success 10 4 ((10 : ℚ) / ((4 : Nat) : ℚ)) (some 0)
    ∧ (10 = 10 ∧ 4 < 10 ∧
        (0 < 4 → ((10 : ℚ) / ((4 : Nat) : ℚ)) = (10 : ℚ) / ((4 : Nat) : ℚ))) :=
  ⟨rfl, c2_orchestrator_invariant 10 [some 4] 10 4 _ (some 0) rfl⟩

/-! ### C3 -/

/-- C3: the orchestrator's accumulator (the returned `compressed_size`
on success) is ≤ every candidate's measured size; the call fails iff no
candidate's measured size is strictly below the original size; and the
selected candidate is the earliest one achieving the final size — every
earlier measured candidate is strictly larger, so ties keep the
earliest-run candidate. -/
theorem c3_orchestrator_monotonicity (orig : Nat) (cands : List (Option Nat)) :
    (∀ k s, cands.get? k = some (some s) → (selectBest orig cands).1 ≤ s)
    ∧ ((∃ e, compress_video_model orig cands = CResult.failure e) ↔
        ¬ ∃ k s, cands.get? k = some (some s) ∧ s < orig)
    ∧ (∀ j, (selectBest orig cands).2 = some j →
        cands.get? j = some (some ((selectBest orig cands).1)) ∧
        ∀ m s, m < j → cands.get? m = some (some s) →
          (selectBest orig cands).1 < s)
    ∧ (∀ os cs r a,
        compress_video_model orig cands = CResult.success os cs r a →
        cs = (selectBest orig cands).1) := by
  have hbe : selectAux 0 orig none cands = selectBest orig cands := rfl
  have hmain := selectAux_main cands 0 orig none
  rw [hbe] at hmain
  have hlem : ∀ k s, cands.get? k = some (some s) → (selectBest orig cands).1 ≤ s :=
    selectAux_le_measured cands 0 orig none
  have hfail : (∃ e, compress_video_model orig cands = CResult.failure e) ↔
      orig ≤ (selectBest orig cands).1 := by
    unfold compress_video_model
    split
    · next hc => exact ⟨fun _ => hc, fun _ => ⟨"Could not achieve compression", rfl⟩⟩
    · next hc =>
      constructor
      · rintro ⟨e, he⟩
        exact CResult.noConfusion he
      · intro hle
        exact absurd hle hc
  refine ⟨?_, ?_, ?_, ?_⟩
  · intro k s hk
    exact hlem k s hk
  · rw [hfail]
    constructor
    · rintro hle ⟨k, s, hk, hs⟩
      have := hlem k s hk
      omega
    · intro hno
      rcases hmain with ⟨h1, _, _⟩ | ⟨h1, k, _, h3, _⟩
      · rw [h1]
      · exact absurd ⟨k, (selectBest orig cands).1, h3, h1⟩ hno
  · intro j hj
    rcases hmain with ⟨_, h2, _⟩ | ⟨_, k, h2, h3, h4⟩
    · rw [hj] at h2
      exact Option.noConfusion h2
    · rw [hj] at h2
      have hjk : j = k := by
        have := Option.some.inj h2
        omega
      subst hjk
      exact ⟨h3, fun m s hm hms => h4 m s hm hms⟩
  · intro os cs r a h
    unfold compress_video_model at h
    split at h
    · exact CResult.noConfusion h
    · injection h with h1 h2 h3 h4
      exact h2.symm

/-- Witness for C3: two candidates tie at size 7 after a failing
candidate; the first one (index 0) is kept, and the monotonicity and
failure characterizations instantiate. -/
theorem c3_orchestrator_monotonicity_witness :
    ((selectBest 10 [some 7, none, some 7]).1 ≤ 7
      ∧ [some 7, none, some 7].get? 2 = some (some 7))
    ∧ ((selectBest 10 [some 7, none, some 7]).2 = some 0
      ∧ [some 7, none, some 7].get? 0 = some (some ((selectBest 10 [some 7, none, some 7]).1)))
    ∧ ¬ ∃ e, compress_video_model 10 [some 7, none, some 7] = CResult.failure e :=
  ⟨⟨(c3_orchestrator_monotonicity 10 [some 7, none, some 7]).1 2 7 rfl, rfl⟩,
   ⟨rfl, ((c3_orchestrator_monotonicity 10 [some 7, none, some 7]).2.2.1 0 rfl).1⟩,
   fun he =>
     ((c3_orchestrator_monotonicity 10 [some 7, none, some 7]).2.1.mp he)
       ⟨0, 7, rfl, by omega⟩⟩

/-! ### C6 -/

/-- C6: a first candidate that raises during algorithm application
aborts the whole docx compression call — the except handler evaluates
the still-unbound `temp_output` and raises UnboundLocalError, so the
remaining candidates never run (here the second candidate would have
succeeded with size 10 against an original of 100).  The same failing
candidate at a later position is logged and skipped as the claim
describes. -/
theorem c6_docx_first_candidate_failure_aborts :
    compress_docx_model 100 [DocxEvent.algoRaises, DocxEvent.ok 10] =
      CResult.failure "UnboundLocalError"
    ∧ compress_docx_model 100 [DocxEvent.ok 10] =
      CResult.success 100 10 (((100 : Nat) : ℚ) / ((10 : Nat) : ℚ)) (some 0)
    ∧ compress_docx_model 100 [DocxEvent.ok 200, DocxEvent.algoRaises, DocxEvent.ok 10] =
      CResult.success 100 10 (((100 : Nat) : ℚ) / ((10 : Nat) : ℚ)) (some 2) :=
  ⟨rfl, rfl, rfl⟩

/-! ### C5 -/

/-- C5 counterexample: in `compress_pdf`, when no candidate improves,
the final maximum-compression attempt writes its output (size 11 here,
against an original of 10) directly to the output path before the size
comparison; the call then returns success False with that non-improving
output left at the final output path. -/
theorem c5_pdf_fallback_leaves_output_on_failure :
    (pdf_fs_model 10 [VEvent.ok 12] 11).2 =
      CResult.failure "Could not achieve compression"
    ∧ (pdf_fs_model 10 [VEvent.ok 12] 11).1.output = some 11 :=
  ⟨rfl, rfl⟩

/-- Invariant of the per-candidate file loop: the temp path is always
empty after a candidate finishes, and the output path is either still
untouched with the accumulator at the original size, or holds exactly
the accumulator's blob with the accumulator strictly below the original
size. -/
theorem videoFSAux_inv (events : List VEvent) :
    ∀ fs best bi i orig, fs.temp = none →
      (fs.output = none ∧ best = orig ∨ fs.output = some best ∧ best < orig) →
      ((videoFSAux fs best bi i events).1.temp = none
       ∧ ((videoFSAux fs best bi i events).1.output = none
            ∧ (videoFSAux fs best bi i events).2.1 = orig
          ∨ (videoFSAux fs best bi i events).1.output =
              some ((videoFSAux fs best bi i events).2.1)
            ∧ (videoFSAux fs best bi i events).2.1 < orig)) := by
  induction events with
  | nil =>
    intro fs best bi i orig h1 h2
    exact ⟨h1, h2⟩
  | cons e es ih =>
    intro fs best bi i orig h1 h2
    cases e with
    | exc => exact ih { fs with temp := none } best bi (i + 1) orig rfl h2
    | ok s =>
      have e1 : videoFSAux fs best bi i (.ok s :: es) =
          if s < best then
            videoFSAux { temp := none, output := some s } s (some i) (i + 1) es
          else videoFSAux { fs with temp := none } best bi (i + 1) es := rfl
      rw [e1]
      by_cases hs : s < best
      · rw [if_pos hs]
        apply ih _ _ _ _ orig rfl
        refine Or.inr ⟨rfl, ?_⟩
        rcases h2 with ⟨_, hb⟩ | ⟨_, hb⟩ <;> omega
      · rw [if_neg hs]
        exact ih _ _ _ _ orig rfl h2

/-- C5 (amended): in the `compress_video`-style candidate loop, a
candidate's temp file is promoted to the output path only after the size
comparison shows it strictly smaller than the best so far, and is
deleted otherwise; the temp path is always empty at the end, after a
failing call the output path is untouched, and after a successful call
it holds exactly the returned compressed blob.  `compress_pdf`'s final
fallback attempt is the exception: it writes directly to the output path
before its comparison and leaves a non-improving output there on failure
(see the counterexample). -/
theorem c5_video_temp_promotion_invariant (orig : Nat) (events : List VEvent) :
    (video_fs_model orig events).1.temp = none
    ∧ (∀ e, (video_fs_model orig events).2 = CResult.failure e →
        (video_fs_model orig events).1.output = none)
    ∧ (∀ os cs r a, (video_fs_model orig events).2 = CResult.success os cs r a →
        (video_fs_model orig events).1.output = some cs) := by
  have hinv :=
    videoFSAux_inv events ⟨none, none⟩ orig none 0 orig rfl (Or.inl ⟨rfl, rfl⟩)
  unfold video_fs_model
  dsimp only
  refine ⟨hinv.1, ?_, ?_⟩
  · intro e he
    rcases hinv.2 with ⟨ho, hb⟩ | ⟨ho, hb⟩
    · exact ho
    · rw [if_neg (by omega)] at he
      exact CResult.noConfusion he
  · intro os cs r a he
    split at he
    · exact CResult.noConfusion he
    · next hc =>
      injection he with e1 e2 e3 e4
      rcases hinv.2 with ⟨ho, hb⟩ | ⟨ho, hb⟩
      · exact absurd hb (by omega)
      · rw [← e2]
        exact ho

/-- Witness for C5 (amended): three candidates (non-improving 12,
exception, improving 4) against an original size of 10: the call
succeeds, the output path holds the size-4 blob, the temp path is
empty. -/
theorem c5_video_temp_promotion_invariant_witness :
    (video_fs_model 10 [VEvent.ok 12, VEvent.exc, VEvent.ok 4]).1.temp = none
    ∧ (video_fs_model 10 [VEvent.ok 12, VEvent.exc, VEvent.ok 4]).1.output = some 4 :=
  ⟨(c5_video_temp_promotion_invariant 10 [VEvent.ok 12, VEvent.exc, VEvent.ok 4]).1,
   (c5_video_temp_promotion_invariant 10 [VEvent.ok 12, VEvent.exc, VEvent.ok 4]).2.2
     10 4 _ (some 2) rfl⟩

/-! ### C4 -/

/-- C4: in `compress_pdf`'s lossless loop the candidates do not observe
an unmodified copy of the original payload: on a 40-byte content stream
of repeated 97, the first candidate overwrites the shared reader's page
content with the RLE blob [97, 52, 48], and the second candidate
therefore observes that blob, not the original. -/
theorem c4_pdf_candidates_observe_mutated_payload :
    pdf_observed_content (List.replicate 40 97) 0 = List.replicate 40 97
    ∧ pdf_observed_content (List.replicate 40 97) 1 = [97, 52, 48]
    ∧ pdf_observed_content (List.replicate 40 97) 1 ≠ List.replicate 40 97 := by
  refine ⟨rfl, by decide, by decide⟩

end CompressoX
